import Mathlib

/-!
# Credence bond contract — shallow embedding and verification

This file embeds the Soroban contract `src/contracts/credence_bond/src/lib.rs`
(the `CredenceBond` contract) in Lean and proves properties of the embedded
operations.  Addresses and symbols are modelled as `Nat`, `i128` as `Int`
with explicit range checks, `u64`/`u32` as `Nat` with explicit bounds.
A contract call either commits a new state or panics; a panic traps the host
and rolls the whole call back, so every operation is modelled as a function
from the pre-state to either an error (state unchanged) or a result paired
with the committed post-state.
-/

namespace Credence

/-- Smallest `i128` value, `-(2 ^ 127)`. -/
def i128Min : Int := -170141183460469231731687303715884105728

/-- Largest `i128` value, `2 ^ 127 - 1`. -/
def i128Max : Int := 170141183460469231731687303715884105727

/-- Largest `u64` value, `2 ^ 64 - 1`. -/
def u64Max : Nat := 18446744073709551615

/-- Largest `u32` value, `2 ^ 32 - 1`. -/
def u32Max : Nat := 4294967295

/-- `x` fits in `i128`. -/
def inI128 (x : Int) : Prop := i128Min ≤ x ∧ x ≤ i128Max

instance (x : Int) : Decidable (inI128 x) :=
  inferInstanceAs (Decidable (i128Min ≤ x ∧ x ≤ i128Max))

/-- Rust `i128::checked_add`. -/
def checkedAddI128 (a b : Int) : Option Int :=
  if inI128 (a + b) then some (a + b) else none

/-- Rust `i128::checked_sub`. -/
def checkedSubI128 (a b : Int) : Option Int :=
  if inI128 (a - b) then some (a - b) else none

/-- Modelled from the spec: `execute_slash`, `slash_bond`, `withdraw_bond` and
`deposit_fees` use plain (unchecked) `i128` arithmetic in the source; whether
that wraps silently or traps is decided by the crate build profile
(`Cargo.toml`, which is not under `src/`).  Spec sections 4.3 and 7 describe
every overflowing add/sub as a failing checked operation (error `Overflow`),
so plain `i128` arithmetic is modelled as trapping on overflow, i.e. the same
partial function as the checked one. -/
def uncheckedAddI128 (a b : Int) : Option Int := checkedAddI128 a b

/-- Modelled from the spec: unchecked `i128` subtraction, trapping on
overflow for the same reason as `uncheckedAddI128`. -/
def uncheckedSubI128 (a b : Int) : Option Int := checkedSubI128 a b

/-- Rust `u64::checked_add`. -/
def checkedAddU64 (a b : Nat) : Option Nat :=
  if a + b ≤ u64Max then some (a + b) else none

/-- Rust `u64::saturating_add`. -/
def saturatingAddU64 (a b : Nat) : Nat := min (a + b) u64Max

/-- Modelled from the spec: `submit_slash_request` increments the `u32`
request counter with a plain `+= 1`; overflow behaviour is fixed by the
missing build profile, modelled as trapping (error `Overflow`), consistent
with the treatment of unchecked `i128` arithmetic. -/
def uncheckedAddU32 (a b : Nat) : Option Nat :=
  if a + b ≤ u32Max then some (a + b) else none

/-- The panic/error taxonomy of the contract (spec section 7).  Every Rust
`panic!` / failed `expect` / failed `assert!` of `lib.rs` is mapped to one of
these values; `NoBond`, `NoSlashRequest`, `NoConfig` and `NoAdmin` stand for
the `unwrap`-style panics on missing storage entries. -/
inductive Error where
  | NotOwner
  | NotAdmin
  | NotActive
  | NotGovernanceMember
  | NotPending
  | NotApproved
  | NotDisputed
  | InvalidState
  | Overflow
  | InvariantViolation
  | InsufficientBalance
  | SlashExceedsBond
  | UseRegularWithdraw
  | ReentrancyDetected
  | NotRolling
  | AlreadyRequested
  | NoBond
  | NoSlashRequest
  | NoConfig
  | NoAdmin
  deriving DecidableEq, Repr

/-- Result of a contract call: either a value (with the committed post-state
when paired) or the error the call panicked with. -/
inductive Res (α : Type) where
  | ok : α → Res α
  | err : Error → Res α
  deriving DecidableEq, Repr

/-- The `IdentityBond` record of `lib.rs`. -/
structure IdentityBond where
  identity : Nat
  bonded_amount : Int
  bond_start : Nat
  bond_duration : Nat
  slashed_amount : Int
  active : Bool
  is_rolling : Bool
  withdrawal_requested_at : Nat
  notice_period : Nat
  deriving DecidableEq, Repr

/-- The `SlashRequestStatus` enum of `lib.rs`. -/
inductive SlashRequestStatus where
  | Pending
  | Approved
  | Executed
  | Rejected
  | Disputed
  deriving DecidableEq, Repr

/-- The `SlashRequest` record of `lib.rs`; `reason` and `dispute_reason` are
`Symbol`s, modelled as `Nat` codes (`0` is the empty symbol). -/
structure SlashRequest where
  id : Nat
  requester : Nat
  identity : Nat
  amount : Int
  reason : Nat
  status : SlashRequestStatus
  approvals : List Nat
  created_at : Nat
  disputed : Bool
  dispute_reason : Nat
  deriving DecidableEq, Repr

/-- The `GovernanceConfig` record of `lib.rs`. -/
structure GovernanceConfig where
  admin : Nat
  required_approvals : Nat
  governance_members : List Nat
  slash_request_counter : Nat
  deriving DecidableEq, Repr

/-- The instance storage of the contract: the `Admin` and `Bond` keys, the
`"config"` / `"gov_members"` / `"slash_req"` / `"fees"` / `"locked"` /
`"callback"` symbols, and the early-exit penalty configuration (stored by the
`early_exit_penalty` module).  `fees` and `locked` default to `0` / `false`
when unset, so they are stored directly. -/
structure ContractState where
  admin : Option Nat
  bond : Option IdentityBond
  config : Option GovernanceConfig
  gov_members : List Nat
  slash_req : Option SlashRequest
  fees : Int
  locked : Bool
  callback : Option Nat
  penalty_bps : Nat
  deriving DecidableEq, Repr

/-- Modelled from the spec: the early-exit penalty collaborator (module
`early_exit_penalty`, declared in `lib.rs` but not present under `src/`).
The spec gives only the signature `penalty(amount, time_remaining,
total_duration, rate_bps)`; the penalty is routed to the treasury by the
external funds-movement service and is never subtracted from the stored bond
(`withdraw_early` reduces `bonded_amount` by the full `amount`), so only
totality matters for the stored state.  Modelled as a pro-rata basis-points
charge. -/
def calculate_penalty (amount : Int) (remaining total_duration rate_bps : Nat) : Int :=
  if total_duration = 0 then 0
  else amount * (rate_bps : Int) * (remaining : Int) / ((total_duration : Int) * 10000)

/-- `create_bond_with_rolling` (lib.rs lines 216-243): checks that
`bond_start + duration` does not overflow `u64`, then stores a fresh active,
unslashed bond, overwriting any previous one.  `now` is the ledger
timestamp. -/
def create_bond_with_rolling (s : ContractState) (now ident : Nat) (amount : Int)
    (duration : Nat) (is_rolling : Bool) (notice : Nat) :
    Res (IdentityBond × ContractState) :=
  match checkedAddU64 now duration with
  | none => .err .Overflow
  | some _ =>
    let bond : IdentityBond :=
      { identity := ident, bonded_amount := amount, bond_start := now,
        bond_duration := duration, slashed_amount := 0, active := true,
        is_rolling := is_rolling, withdrawal_requested_at := 0,
        notice_period := notice }
    .ok (bond, { s with bond := some bond })

/-- `create_bond` (lib.rs lines 211-213): non-rolling helper delegating to
`create_bond_with_rolling`. -/
def create_bond (s : ContractState) (now ident : Nat) (amount : Int)
    (duration : Nat) : Res (IdentityBond × ContractState) :=
  create_bond_with_rolling s now ident amount duration false 0

/-- `submit_slash_request` (lib.rs lines 255-315). -/
def submit_slash_request (s : ContractState) (now requester ident : Nat)
    (amount : Int) (reason : Nat) : Res (Nat × ContractState) :=
  if s.gov_members.contains requester then
    match s.config with
    | none => .err .NoConfig
    | some cfg =>
      match uncheckedAddU32 cfg.slash_request_counter 1 with
      | none => .err .Overflow
      | some rid =>
        let cfg2 := { cfg with slash_request_counter := rid }
        let req : SlashRequest :=
          { id := rid, requester := requester, identity := ident,
            amount := amount, reason := reason,
            status := .Pending, approvals := [requester],
            created_at := now, disputed := false, dispute_reason := 0 }
        .ok (rid, { s with config := some cfg2, slash_req := some req })
  else .err .NotGovernanceMember

/-- `approve_slash_request` (lib.rs lines 318-376).  A duplicate approval
returns `false` before any storage write; otherwise the approver is appended
and the status becomes `Approved` when the threshold is met. -/
def approve_slash_request (s : ContractState) (approver : Nat) :
    Res (Bool × ContractState) :=
  if s.gov_members.contains approver then
    match s.slash_req with
    | none => .err .NoSlashRequest
    | some req =>
      if req.status = .Pending then
        if req.approvals.contains approver then .ok (false, s)
        else
          match s.config with
          | none => .err .NoConfig
          | some cfg =>
            let approvals2 := req.approvals ++ [approver]
            let status2 : SlashRequestStatus :=
              if cfg.required_approvals ≤ approvals2.length then .Approved
              else .Pending
            let req2 := { req with approvals := approvals2, status := status2 }
            .ok (decide (status2 = .Approved), { s with slash_req := some req2 })
      else .err .NotPending
  else .err .NotGovernanceMember

/-- `execute_slash` (lib.rs lines 379-416): requires an `Approved` request,
adds the request amount to `slashed_amount` (unchecked `+=` in the source,
see `uncheckedAddI128`), caps at `bonded_amount` and deactivates on a full
slash, and marks the request `Executed`. -/
def execute_slash (s : ContractState) : Res (IdentityBond × ContractState) :=
  match s.slash_req with
  | none => .err .NoSlashRequest
  | some req =>
    if req.status = .Approved then
      match s.bond with
      | none => .err .NoBond
      | some bond =>
        match uncheckedAddI128 bond.slashed_amount req.amount with
        | none => .err .Overflow
        | some ns =>
          let bond2 :=
            if bond.bonded_amount ≤ ns then
              { bond with slashed_amount := bond.bonded_amount, active := false }
            else { bond with slashed_amount := ns }
          let req2 := { req with status := .Executed }
          .ok (bond2, { s with bond := some bond2, slash_req := some req2 })
    else .err .NotApproved

/-- `reject_slash_request` (lib.rs lines 419-446). -/
def reject_slash_request (s : ContractState) :
    Res (SlashRequestStatus × ContractState) :=
  match s.admin with
  | none => .err .NoAdmin
  | some _ =>
    match s.slash_req with
    | none => .err .NoSlashRequest
    | some req =>
      if req.status = .Pending then
        .ok (.Rejected, { s with slash_req := some { req with status := .Rejected } })
      else .err .NotPending

/-- `dispute_slash_request` (lib.rs lines 449-491). -/
def dispute_slash_request (s : ContractState) (disputer reason : Nat) :
    Res (Bool × ContractState) :=
  if s.gov_members.contains disputer then
    match s.slash_req with
    | none => .err .NoSlashRequest
    | some req =>
      if req.status = .Pending ∨ req.status = .Approved then
        let req2 := { req with disputed := true, dispute_reason := reason,
                               status := .Disputed }
        .ok (true, { s with slash_req := some req2 })
      else .err .InvalidState
  else .err .NotGovernanceMember

/-- `resolve_dispute` (lib.rs lines 494-530): only a `Disputed` request can
be resolved; approval re-evaluates the quorum, rejection is unconditional;
`disputed` is cleared in both resolution branches. -/
def resolve_dispute (s : ContractState) (resolve_approved : Bool) :
    Res (SlashRequestStatus × ContractState) :=
  match s.slash_req with
  | none => .err .NoSlashRequest
  | some req =>
    if req.status = .Disputed then
      if resolve_approved then
        match s.config with
        | none => .err .NoConfig
        | some cfg =>
          let status2 : SlashRequestStatus :=
            if cfg.required_approvals ≤ req.approvals.length then .Approved
            else .Pending
          let req2 := { req with status := status2, disputed := false }
          .ok (status2, { s with slash_req := some req2 })
      else
        let req2 := { req with status := .Rejected, disputed := false }
        .ok (.Rejected, { s with slash_req := some req2 })
    else .err .NotDisputed

/-- `withdraw` (lib.rs lines 689-725): checks the available balance
(`bonded - slashed`, a failure here is the defensive `InvariantViolation`),
subtracts `amount` with overflow protection and re-checks
`slashed ≤ bonded`.  The tier-change notification only publishes an event
and does not touch the stored bond. -/
def withdraw (s : ContractState) (amount : Int) :
    Res (IdentityBond × ContractState) :=
  match s.bond with
  | none => .err .NoBond
  | some bond =>
    match checkedSubI128 bond.bonded_amount bond.slashed_amount with
    | none => .err .InvariantViolation
    | some available =>
      if available < amount then .err .InsufficientBalance
      else
        match checkedSubI128 bond.bonded_amount amount with
        | none => .err .Overflow
        | some bonded2 =>
          if bonded2 < bond.slashed_amount then .err .InvariantViolation
          else
            let bond2 := { bond with bonded_amount := bonded2 }
            .ok (bond2, { s with bond := some bond2 })

/-- `withdraw_early` (lib.rs lines 729-774): same availability check as
`withdraw`, additionally requires `now < bond_start + bond_duration`
(saturating add, else `UseRegularWithdraw`).  The penalty is computed and
emitted but only the full `amount` is subtracted from the bond. -/
def withdraw_early (s : ContractState) (now : Nat) (amount : Int) :
    Res (IdentityBond × ContractState) :=
  match s.bond with
  | none => .err .NoBond
  | some bond =>
    match checkedSubI128 bond.bonded_amount bond.slashed_amount with
    | none => .err .InvariantViolation
    | some available =>
      if available < amount then .err .InsufficientBalance
      else
        let endTime := saturatingAddU64 bond.bond_start bond.bond_duration
        if endTime ≤ now then .err .UseRegularWithdraw
        else
          let _penalty :=
            calculate_penalty amount (endTime - now) bond.bond_duration s.penalty_bps
          match checkedSubI128 bond.bonded_amount amount with
          | none => .err .Overflow
          | some bonded2 =>
            if bonded2 < bond.slashed_amount then .err .InvariantViolation
            else
              let bond2 := { bond with bonded_amount := bonded2 }
              .ok (bond2, { s with bond := some bond2 })

/-- `slash` (lib.rs lines 831-854): checked add of `amount` to
`slashed_amount`, capped at `bonded_amount`.  Note: this helper does not
touch `active`. -/
def slash (s : ContractState) (amount : Int) :
    Res (IdentityBond × ContractState) :=
  match s.bond with
  | none => .err .NoBond
  | some bond =>
    match checkedAddI128 bond.slashed_amount amount with
    | none => .err .Overflow
    | some ns =>
      let slashed2 := if bond.bonded_amount < ns then bond.bonded_amount else ns
      let bond2 := { bond with slashed_amount := slashed2 }
      .ok (bond2, { s with bond := some bond2 })

/-- `top_up` (lib.rs lines 857-877): checked add to `bonded_amount`; the
tier notification only publishes an event. -/
def top_up (s : ContractState) (amount : Int) :
    Res (IdentityBond × ContractState) :=
  match s.bond with
  | none => .err .NoBond
  | some bond =>
    match checkedAddI128 bond.bonded_amount amount with
    | none => .err .Overflow
    | some bonded2 =>
      let bond2 := { bond with bonded_amount := bonded2 }
      .ok (bond2, { s with bond := some bond2 })

/-- `extend_duration` (lib.rs lines 880-902): checked add to
`bond_duration`, then re-checks that `bond_start + bond_duration` does not
overflow `u64`. -/
def extend_duration (s : ContractState) (extra : Nat) :
    Res (IdentityBond × ContractState) :=
  match s.bond with
  | none => .err .NoBond
  | some bond =>
    match checkedAddU64 bond.bond_duration extra with
    | none => .err .Overflow
    | some d2 =>
      match checkedAddU64 bond.bond_start d2 with
      | none => .err .Overflow
      | some _ =>
        let bond2 := { bond with bond_duration := d2 }
        .ok (bond2, { s with bond := some bond2 })

/-- `deposit_fees` (lib.rs lines 905-909): unchecked i128 add into the fee
pool. -/
def deposit_fees (s : ContractState) (amount : Int) : Res (Unit × ContractState) :=
  match uncheckedAddI128 s.fees amount with
  | none => .err .Overflow
  | some fees2 => .ok ((), { s with fees := fees2 })

/-- `withdraw_bond` (lib.rs lines 913-960): guarded full-balance
self-withdrawal.  Lock acquisition comes first (`ReentrancyDetected` when
held), then owner/active validation, then the bond is rewritten with
`bonded_amount = 0`, `active = false` and every other field copied, before
the optional `on_withdraw` callback is invoked; the callback is an external
interaction and does not itself modify this contract's storage.  The lock is
released after the callback, so a committed call ends with the lock free. -/
def withdraw_bond (s : ContractState) (ident : Nat) : Res (Int × ContractState) :=
  if s.locked then .err .ReentrancyDetected
  else
    match s.bond with
    | none => .err .NoBond
    | some bond =>
      if bond.identity ≠ ident then .err .NotOwner
      else if bond.active = false then .err .NotActive
      else
        match uncheckedSubI128 bond.bonded_amount bond.slashed_amount with
        | none => .err .Overflow
        | some amt =>
          let bond2 := { bond with bonded_amount := 0, active := false }
          .ok (amt, { s with bond := some bond2, locked := false })

/-- `slash_bond` (lib.rs lines 964-1020): guarded direct-admin slash.  Lock
acquisition first, then admin and active checks; unlike `slash` /
`execute_slash` this path rejects with `SlashExceedsBond` when the new total
would exceed `bonded_amount` instead of capping.  The optional `on_slash`
callback is an external interaction with no effect on this contract's
storage. -/
def slash_bond (s : ContractState) (adminArg : Nat) (amount : Int) :
    Res (Int × ContractState) :=
  if s.locked then .err .ReentrancyDetected
  else
    match s.admin with
    | none => .err .NoAdmin
    | some a =>
      if a ≠ adminArg then .err .NotAdmin
      else
        match s.bond with
        | none => .err .NoBond
        | some bond =>
          if bond.active = false then .err .NotActive
          else
            match uncheckedAddI128 bond.slashed_amount amount with
            | none => .err .Overflow
            | some ns =>
              if bond.bonded_amount < ns then .err .SlashExceedsBond
              else
                let bond2 := { bond with slashed_amount := ns }
                .ok (ns, { s with bond := some bond2, locked := false })

/-- `collect_fees` (lib.rs lines 1024-1054): guarded fee collection.  Lock
acquisition first, then the admin check; the fee pool is zeroed before the
optional `on_collect` callback. -/
def collect_fees (s : ContractState) (adminArg : Nat) : Res (Int × ContractState) :=
  if s.locked then .err .ReentrancyDetected
  else
    match s.admin with
    | none => .err .NoAdmin
    | some a =>
      if a ≠ adminArg then .err .NotAdmin
      else .ok (s.fees, { s with fees := 0, locked := false })

/-- The ledger state after a call: the committed post-state on success, the
unchanged pre-state on a panic (a Soroban panic traps and rolls back every
storage write of the call). -/
def stateAfter {α : Type} (r : Res (α × ContractState)) (s : ContractState) :
    ContractState :=
  match r with
  | .ok (_, s2) => s2
  | .err _ => s

/-- One bond-mutating entry point together with its arguments (the ledger
timestamp `now` is an argument where the operation reads it). -/
inductive Op where
  | createBond (now ident : Nat) (amount : Int) (duration : Nat)
  | createBondWithRolling (now ident : Nat) (amount : Int) (duration : Nat)
      (is_rolling : Bool) (notice : Nat)
  | topUp (amount : Int)
  | extendDuration (extra : Nat)
  | withdrawOp (amount : Int)
  | withdrawEarly (now : Nat) (amount : Int)
  | slashOp (amount : Int)
  | executeSlash
  | slashBond (adminArg : Nat) (amount : Int)
  | withdrawBond (ident : Nat)
  deriving DecidableEq, Repr

/-- Run one operation, keeping only the committed state. -/
def runOp (op : Op) (s : ContractState) : Res ContractState :=
  match op with
  | .createBond now ident amount duration =>
    match create_bond s now ident amount duration with
    | .ok (_, s2) => .ok s2
    | .err e => .err e
  | .createBondWithRolling now ident amount duration r n =>
    match create_bond_with_rolling s now ident amount duration r n with
    | .ok (_, s2) => .ok s2
    | .err e => .err e
  | .topUp amount =>
    match top_up s amount with
    | .ok (_, s2) => .ok s2
    | .err e => .err e
  | .extendDuration extra =>
    match extend_duration s extra with
    | .ok (_, s2) => .ok s2
    | .err e => .err e
  | .withdrawOp amount =>
    match withdraw s amount with
    | .ok (_, s2) => .ok s2
    | .err e => .err e
  | .withdrawEarly now amount =>
    match withdraw_early s now amount with
    | .ok (_, s2) => .ok s2
    | .err e => .err e
  | .slashOp amount =>
    match slash s amount with
    | .ok (_, s2) => .ok s2
    | .err e => .err e
  | .executeSlash =>
    match execute_slash s with
    | .ok (_, s2) => .ok s2
    | .err e => .err e
  | .slashBond adminArg amount =>
    match slash_bond s adminArg amount with
    | .ok (_, s2) => .ok s2
    | .err e => .err e
  | .withdrawBond ident =>
    match withdraw_bond s ident with
    | .ok (_, s2) => .ok s2
    | .err e => .err e

/-- Run a sequence of operations; the whole run fails at the first failing
operation (a sequence of successful operations is one for which this returns
`ok`). -/
def runOps (ops : List Op) (s : ContractState) : Res ContractState :=
  match ops with
  | [] => .ok s
  | op :: rest =>
    match runOp op s with
    | .ok s2 => runOps rest s2
    | .err e => .err e

/-- Run a sequence of `approve_slash_request` calls, keeping only the
state. -/
def runApproves (approvers : List Nat) (s : ContractState) : Res ContractState :=
  match approvers with
  | [] => .ok s
  | a :: rest =>
    match approve_slash_request s a with
    | .ok (_, s2) => runApproves rest s2
    | .err e => .err e

/-- `0 ≤ slashed_amount ≤ bonded_amount` for the stored bond, if any (the
spec section 3 bond invariant, first clause). -/
def stateBondOk (s : ContractState) : Bool :=
  match s.bond with
  | none => true
  | some b => decide (0 ≤ b.slashed_amount) && decide (b.slashed_amount ≤ b.bonded_amount)

/-- The live slash request, if any, carries a nonnegative amount. -/
def reqAmountOk (s : ContractState) : Bool :=
  match s.slash_req with
  | none => true
  | some r => decide (0 ≤ r.amount)

/-- Operations covered by the amended invariant claim: every amount argument
nonnegative and the full self-withdrawal excluded. -/
def opAllowed (op : Op) : Bool :=
  match op with
  | .createBond _ _ amount _ => decide (0 ≤ amount)
  | .createBondWithRolling _ _ amount _ _ _ => decide (0 ≤ amount)
  | .topUp amount => decide (0 ≤ amount)
  | .extendDuration _ => true
  | .withdrawOp _ => true
  | .withdrawEarly _ _ => true
  | .slashOp amount => decide (0 ≤ amount)
  | .executeSlash => true
  | .slashBond _ amount => decide (0 ≤ amount)
  | .withdrawBond _ => false

theorem stateBondOk_of_bond {s : ContractState} {b : IdentityBond}
    (h : stateBondOk s = true) (hb : s.bond = some b) :
    0 ≤ b.slashed_amount ∧ b.slashed_amount ≤ b.bonded_amount := by
  simp [stateBondOk, hb] at h
  exact h

theorem reqAmountOk_of_req {s : ContractState} {r : SlashRequest}
    (h : reqAmountOk s = true) (hr : s.slash_req = some r) : 0 ≤ r.amount := by
  simp [reqAmountOk, hr] at h
  exact h

theorem reqAmountOk_set_bond (s : ContractState) (b : Option IdentityBond) :
    reqAmountOk { s with bond := b } = reqAmountOk s := rfl

theorem stateBondOk_set_req (s : ContractState) (r : Option SlashRequest) :
    stateBondOk { s with slash_req := r } = stateBondOk s := rfl

theorem checkedAddI128_some {a b c : Int} (h : checkedAddI128 a b = some c) :
    c = a + b ∧ inI128 (a + b) := by
  by_cases hr : inI128 (a + b)
  · simp [checkedAddI128, hr] at h
    exact ⟨h.symm, hr⟩
  · simp [checkedAddI128, hr] at h

theorem checkedSubI128_some {a b c : Int} (h : checkedSubI128 a b = some c) :
    c = a - b ∧ inI128 (a - b) := by
  by_cases hr : inI128 (a - b)
  · simp [checkedSubI128, hr] at h
    exact ⟨h.symm, hr⟩
  · simp [checkedSubI128, hr] at h

theorem checkedAddU64_some {a b c : Nat} (h : checkedAddU64 a b = some c) :
    c = a + b ∧ a + b ≤ u64Max := by
  by_cases hr : a + b ≤ u64Max
  · simp [checkedAddU64, hr] at h
    exact ⟨h.symm, hr⟩
  · simp [checkedAddU64, hr] at h

/-- Every operation allowed by the amended invariant claim preserves
`0 ≤ slashed ≤ bonded` for the stored bond and the nonnegativity of the live
request amount. -/
theorem runOp_preserves_inv (op : Op) (s s2 : ContractState)
    (hB : stateBondOk s = true) (hR : reqAmountOk s = true)
    (hop : opAllowed op = true) (h : runOp op s = .ok s2) :
    stateBondOk s2 = true ∧ reqAmountOk s2 = true := by
  cases op with
  | createBond now ident amount duration =>
    simp only [opAllowed, decide_eq_true_eq] at hop
    simp only [runOp] at h
    cases hw : create_bond s now ident amount duration with
    | err e => simp only [hw] at h; exact absurd h (by simp)
    | ok p =>
      obtain ⟨b2, s2x⟩ := p
      simp only [hw, Res.ok.injEq] at h
      subst h
      simp only [create_bond, create_bond_with_rolling] at hw
      cases hc : checkedAddU64 now duration <;> simp only [hc] at hw
      · exact absurd hw (by simp)
      · simp only [Res.ok.injEq, Prod.mk.injEq] at hw
        obtain ⟨-, hw2⟩ := hw
        subst hw2
        refine ⟨by simp [stateBondOk]; omega, by rw [reqAmountOk_set_bond]; exact hR⟩
  | createBondWithRolling now ident amount duration r n =>
    simp only [opAllowed, decide_eq_true_eq] at hop
    simp only [runOp] at h
    cases hw : create_bond_with_rolling s now ident amount duration r n with
    | err e => simp only [hw] at h; exact absurd h (by simp)
    | ok p =>
      obtain ⟨b2, s2x⟩ := p
      simp only [hw, Res.ok.injEq] at h
      subst h
      simp only [create_bond_with_rolling] at hw
      cases hc : checkedAddU64 now duration <;> simp only [hc] at hw
      · exact absurd hw (by simp)
      · simp only [Res.ok.injEq, Prod.mk.injEq] at hw
        obtain ⟨-, hw2⟩ := hw
        subst hw2
        refine ⟨by simp [stateBondOk]; omega, by rw [reqAmountOk_set_bond]; exact hR⟩
  | topUp amount =>
    simp only [opAllowed, decide_eq_true_eq] at hop
    simp only [runOp] at h
    cases hw : top_up s amount with
    | err e => simp only [hw] at h; exact absurd h (by simp)
    | ok p =>
      obtain ⟨b2, s2x⟩ := p
      simp only [hw, Res.ok.injEq] at h
      subst h
      simp only [top_up] at hw
      cases hb : s.bond with
      | none => simp only [hb] at hw; exact absurd hw (by simp)
      | some bond =>
        simp only [hb] at hw
        cases hc : checkedAddI128 bond.bonded_amount amount with
        | none => simp only [hc] at hw; exact absurd hw (by simp)
        | some bonded2 =>
          simp only [hc, Res.ok.injEq, Prod.mk.injEq] at hw
          obtain ⟨-, hw2⟩ := hw
          subst hw2
          obtain ⟨hc1, -⟩ := checkedAddI128_some hc
          obtain ⟨hf1, hf2⟩ := stateBondOk_of_bond hB hb
          refine ⟨by simp [stateBondOk]; omega, by rw [reqAmountOk_set_bond]; exact hR⟩
  | extendDuration extra =>
    simp only [runOp] at h
    cases hw : extend_duration s extra with
    | err e => simp only [hw] at h; exact absurd h (by simp)
    | ok p =>
      obtain ⟨b2, s2x⟩ := p
      simp only [hw, Res.ok.injEq] at h
      subst h
      simp only [extend_duration] at hw
      cases hb : s.bond with
      | none => simp only [hb] at hw; exact absurd hw (by simp)
      | some bond =>
        simp only [hb] at hw
        cases hc : checkedAddU64 bond.bond_duration extra with
        | none => simp only [hc] at hw; exact absurd hw (by simp)
        | some d2 =>
          simp only [hc] at hw
          cases hc2 : checkedAddU64 bond.bond_start d2 with
          | none => simp only [hc2] at hw; exact absurd hw (by simp)
          | some e2 =>
            simp only [hc2, Res.ok.injEq, Prod.mk.injEq] at hw
            obtain ⟨-, hw2⟩ := hw
            subst hw2
            obtain ⟨hf1, hf2⟩ := stateBondOk_of_bond hB hb
            refine ⟨by simp [stateBondOk]; omega, by rw [reqAmountOk_set_bond]; exact hR⟩
  | withdrawOp amount =>
    simp only [runOp] at h
    cases hw : withdraw s amount with
    | err e => simp only [hw] at h; exact absurd h (by simp)
    | ok p =>
      obtain ⟨b2, s2x⟩ := p
      simp only [hw, Res.ok.injEq] at h
      subst h
      simp only [withdraw] at hw
      cases hb : s.bond with
      | none => simp only [hb] at hw; exact absurd hw (by simp)
      | some bond =>
        simp only [hb] at hw
        cases hc : checkedSubI128 bond.bonded_amount bond.slashed_amount with
        | none => simp only [hc] at hw; exact absurd hw (by simp)
        | some available =>
          simp only [hc] at hw
          split at hw
          · exact absurd hw (by simp)
          · cases hc2 : checkedSubI128 bond.bonded_amount amount with
            | none => simp only [hc2] at hw; exact absurd hw (by simp)
            | some bonded2 =>
              simp only [hc2] at hw
              split at hw
              · exact absurd hw (by simp)
              · rename_i hpost
                simp only [Res.ok.injEq, Prod.mk.injEq] at hw
                obtain ⟨-, hw2⟩ := hw
                subst hw2
                obtain ⟨hf1, hf2⟩ := stateBondOk_of_bond hB hb
                refine ⟨by simp [stateBondOk]; omega,
                  by rw [reqAmountOk_set_bond]; exact hR⟩
  | withdrawEarly now amount =>
    simp only [runOp] at h
    cases hw : withdraw_early s now amount with
    | err e => simp only [hw] at h; exact absurd h (by simp)
    | ok p =>
      obtain ⟨b2, s2x⟩ := p
      simp only [hw, Res.ok.injEq] at h
      subst h
      simp only [withdraw_early] at hw
      cases hb : s.bond with
      | none => simp only [hb] at hw; exact absurd hw (by simp)
      | some bond =>
        simp only [hb] at hw
        cases hc : checkedSubI128 bond.bonded_amount bond.slashed_amount with
        | none => simp only [hc] at hw; exact absurd hw (by simp)
        | some available =>
          simp only [hc] at hw
          split at hw
          · exact absurd hw (by simp)
          · split at hw
            · exact absurd hw (by simp)
            · cases hc2 : checkedSubI128 bond.bonded_amount amount with
              | none => simp only [hc2] at hw; exact absurd hw (by simp)
              | some bonded2 =>
                simp only [hc2] at hw
                split at hw
                · exact absurd hw (by simp)
                · rename_i hpost
                  simp only [Res.ok.injEq, Prod.mk.injEq] at hw
                  obtain ⟨-, hw2⟩ := hw
                  subst hw2
                  obtain ⟨hf1, hf2⟩ := stateBondOk_of_bond hB hb
                  refine ⟨by simp [stateBondOk]; omega,
                    by rw [reqAmountOk_set_bond]; exact hR⟩
  | slashOp amount =>
    simp only [opAllowed, decide_eq_true_eq] at hop
    simp only [runOp] at h
    cases hw : slash s amount with
    | err e => simp only [hw] at h; exact absurd h (by simp)
    | ok p =>
      obtain ⟨b2, s2x⟩ := p
      simp only [hw, Res.ok.injEq] at h
      subst h
      simp only [slash] at hw
      cases hb : s.bond with
      | none => simp only [hb] at hw; exact absurd hw (by simp)
      | some bond =>
        simp only [hb] at hw
        cases hc : checkedAddI128 bond.slashed_amount amount with
        | none => simp only [hc] at hw; exact absurd hw (by simp)
        | some ns =>
          simp only [hc, Res.ok.injEq, Prod.mk.injEq] at hw
          obtain ⟨-, hw2⟩ := hw
          subst hw2
          obtain ⟨hc1, -⟩ := checkedAddI128_some hc
          obtain ⟨hf1, hf2⟩ := stateBondOk_of_bond hB hb
          constructor
          · simp only [stateBondOk]
            simp only [Bool.and_eq_true, decide_eq_true_eq]
            constructor <;> split <;> omega
          · rw [reqAmountOk_set_bond]; exact hR
  | executeSlash =>
    simp only [runOp] at h
    cases hw : execute_slash s with
    | err e => simp only [hw] at h; exact absurd h (by simp)
    | ok p =>
      obtain ⟨b2, s2x⟩ := p
      simp only [hw, Res.ok.injEq] at h
      subst h
      simp only [execute_slash] at hw
      cases hr : s.slash_req with
      | none => simp only [hr] at hw; exact absurd hw (by simp)
      | some req =>
        simp only [hr] at hw
        split at hw
        · cases hb : s.bond with
          | none => simp only [hb] at hw; exact absurd hw (by simp)
          | some bond =>
            simp only [hb] at hw
            cases hc : uncheckedAddI128 bond.slashed_amount req.amount with
            | none => simp only [hc] at hw; exact absurd hw (by simp)
            | some ns =>
              simp only [hc, Res.ok.injEq, Prod.mk.injEq] at hw
              obtain ⟨-, hw2⟩ := hw
              subst hw2
              obtain ⟨hc1, -⟩ := checkedAddI128_some hc
              obtain ⟨hf1, hf2⟩ := stateBondOk_of_bond hB hb
              have hreqamt := reqAmountOk_of_req hR hr
              constructor
              · simp only [stateBondOk]
                split <;> simp only [Bool.and_eq_true, decide_eq_true_eq] <;>
                  constructor <;> omega
              · simp [reqAmountOk]
                omega
        · exact absurd hw (by simp)
  | slashBond adminArg amount =>
    simp only [opAllowed, decide_eq_true_eq] at hop
    simp only [runOp] at h
    cases hw : slash_bond s adminArg amount with
    | err e => simp only [hw] at h; exact absurd h (by simp)
    | ok p =>
      obtain ⟨b2, s2x⟩ := p
      simp only [hw, Res.ok.injEq] at h
      subst h
      simp only [slash_bond] at hw
      split at hw
      · exact absurd hw (by simp)
      · cases ha : s.admin with
        | none => simp only [ha] at hw; exact absurd hw (by simp)
        | some a =>
          simp only [ha] at hw
          split at hw
          · exact absurd hw (by simp)
          · cases hb : s.bond with
            | none => simp only [hb] at hw; exact absurd hw (by simp)
            | some bond =>
              simp only [hb] at hw
              split at hw
              · exact absurd hw (by simp)
              · cases hc : uncheckedAddI128 bond.slashed_amount amount with
                | none => simp only [hc] at hw; exact absurd hw (by simp)
                | some ns =>
                  simp only [hc] at hw
                  split at hw
                  · exact absurd hw (by simp)
                  · rename_i hcap
                    simp only [Res.ok.injEq, Prod.mk.injEq] at hw
                    obtain ⟨-, hw2⟩ := hw
                    subst hw2
                    obtain ⟨hc1, -⟩ := checkedAddI128_some hc
                    obtain ⟨hf1, hf2⟩ := stateBondOk_of_bond hB hb
                    refine ⟨by simp [stateBondOk]; omega, hR⟩
  | withdrawBond ident =>
    simp [opAllowed] at hop

/-- The quorum characterisation `status = Approved ↔ approvals.length ≥
required_approvals` is preserved by every successful sequence of
`approve_slash_request` calls (the configuration is never written by an
approval). -/
theorem runApproves_quorum (approvers : List Nat) : ∀ (s s2 : ContractState)
    (cfg : GovernanceConfig) (req : SlashRequest),
    s.config = some cfg → s.slash_req = some req →
    (req.status = .Approved ↔ cfg.required_approvals ≤ req.approvals.length) →
    runApproves approvers s = .ok s2 →
    ∃ req2, s2.slash_req = some req2 ∧
      (req2.status = .Approved ↔ cfg.required_approvals ≤ req2.approvals.length) := by
  induction approvers with
  | nil =>
    intro s s2 cfg req hcfg hreq hiff h
    simp only [runApproves, Res.ok.injEq] at h
    subst h
    exact ⟨req, hreq, hiff⟩
  | cons a rest ih =>
    intro s s2 cfg req hcfg hreq hiff h
    simp only [runApproves] at h
    cases hap : approve_slash_request s a with
    | err e => simp only [hap] at h; exact absurd h (by simp)
    | ok p =>
      obtain ⟨b, s1⟩ := p
      simp only [hap] at h
      simp only [approve_slash_request] at hap
      split at hap
      · simp only [hreq] at hap
        split at hap
        · rename_i hpend
          split at hap
          · simp only [Res.ok.injEq, Prod.mk.injEq] at hap
            obtain ⟨-, hs1⟩ := hap
            subst hs1
            exact ih s s2 cfg req hcfg hreq hiff h
          · simp only [hcfg] at hap
            simp only [Res.ok.injEq, Prod.mk.injEq] at hap
            obtain ⟨-, hs1⟩ := hap
            subst hs1
            refine ih _ s2 cfg _ rfl rfl ?_ h
            by_cases hq : cfg.required_approvals ≤ (req.approvals ++ [a]).length <;>
              simp [hq]
        · exact absurd hap (by simp)
      · exact absurd hap (by simp)

/-- Counterexample for C6 as stated: with `required_approvals = 1`,
submission itself already meets the threshold (`approvals = {requester}` has
length `1 ≥ 1`), yet the created request's status is `Pending`, not
`Approved` — the status is not `Approved` exactly when the threshold is met. -/
theorem c6_counterexample :
    submit_slash_request
      { admin := some 0, bond := none, config := some ⟨0, 1, [1], 0⟩,
        gov_members := [1], slash_req := none, fees := 0, locked := false,
        callback := none, penalty_bps := 0 } 0 1 7 100 0 =
      .ok (1, { admin := some 0, bond := none, config := some ⟨0, 1, [1], 1⟩,
                gov_members := [1],
                slash_req := some ⟨1, 1, 7, 100, 0, .Pending, [1], 0, false, 0⟩,
                fees := 0, locked := false, callback := none, penalty_bps := 0 }) ∧
    1 ≤ (⟨1, 1, 7, 100, 0, .Pending, [1], 0, false, 0⟩ : SlashRequest).approvals.length ∧
    (⟨1, 1, 7, 100, 0, .Pending, [1], 0, false, 0⟩ : SlashRequest).status ≠ .Approved := by
  refine ⟨by decide, by decide, by decide⟩

/-- C6 (amended): provided `required_approvals ≥ 2`, for every sequence
consisting of a successful `submit_slash_request` followed by any number of
successful `approve_slash_request` calls, the stored request's status is
`Approved` exactly when `approvals.length ≥ required_approvals` — in
particular never before the threshold is met — and submission itself creates
a `Pending` request whose approvals list is the singleton `[requester]`
(with `required_approvals ≤ 1` the claim fails: the freshly submitted
request already meets the threshold but stays `Pending`, see the
counterexample). -/
theorem c6_quorum_after_submit (s s1 s2 : ContractState)
    (cfg : GovernanceConfig) (now requester ident : Nat) (amount : Int)
    (reason rid : Nat) (approvers : List Nat)
    (hcfg : s.config = some cfg) (hreq2 : 2 ≤ cfg.required_approvals)
    (hsub : submit_slash_request s now requester ident amount reason = .ok (rid, s1)) :
    s1.slash_req =
      some ⟨rid, requester, ident, amount, reason, .Pending, [requester], now, false, 0⟩ ∧
    (runApproves approvers s1 = .ok s2 →
      ∀ req2 : SlashRequest, s2.slash_req = some req2 →
        (req2.status = .Approved ↔ cfg.required_approvals ≤ req2.approvals.length)) := by
  simp only [submit_slash_request] at hsub
  split at hsub
  · simp only [hcfg] at hsub
    cases hc : uncheckedAddU32 cfg.slash_request_counter 1 with
    | none => simp only [hc] at hsub; exact absurd hsub (by simp)
    | some rid2 =>
      simp only [hc, Res.ok.injEq, Prod.mk.injEq] at hsub
      obtain ⟨hrid, hs1⟩ := hsub
      subst hrid
      subst hs1
      refine ⟨rfl, ?_⟩
      intro hrun req2 hr2
      obtain ⟨req2x, hs2req, hiff⟩ :=
        runApproves_quorum approvers _ s2 { cfg with slash_request_counter := rid2 }
          ⟨rid2, requester, ident, amount, reason, .Pending, [requester], now, false, 0⟩
          rfl rfl
          ⟨fun hx => absurd hx (by simp), fun hx => absurd hx (by simp; omega)⟩ hrun
      rw [hs2req] at hr2
      cases hr2
      exact hiff
  · exact absurd hsub (by simp)

/-- Witness for C6 (amended): quorum 2, members `{1, 2}`; `1` submits (one
self-approval, `Pending`), `2` approves; the resulting request is `Approved`
with two approvals. -/
theorem c6_quorum_after_submit_witness :
    ((⟨1, 1, 7, 300, 4, .Approved, [1, 2], 0, false, 0⟩ : SlashRequest).status =
        .Approved ↔
      (⟨0, 2, [1, 2], 0⟩ : GovernanceConfig).required_approvals ≤
        (⟨1, 1, 7, 300, 4, .Approved, [1, 2], 0, false, 0⟩ :
          SlashRequest).approvals.length) :=
  (c6_quorum_after_submit
    { admin := some 0, bond := none, config := some ⟨0, 2, [1, 2], 0⟩,
      gov_members := [1, 2], slash_req := none, fees := 0, locked := false,
      callback := none, penalty_bps := 0 }
    { admin := some 0, bond := none, config := some ⟨0, 2, [1, 2], 1⟩,
      gov_members := [1, 2],
      slash_req := some ⟨1, 1, 7, 300, 4, .Pending, [1], 0, false, 0⟩,
      fees := 0, locked := false, callback := none, penalty_bps := 0 }
    { admin := some 0, bond := none, config := some ⟨0, 2, [1, 2], 1⟩,
      gov_members := [1, 2],
      slash_req := some ⟨1, 1, 7, 300, 4, .Approved, [1, 2], 0, false, 0⟩,
      fees := 0, locked := false, callback := none, penalty_bps := 0 }
    ⟨0, 2, [1, 2], 0⟩ 0 1 7 300 4 1 [2] rfl (by decide) (by decide)).2
    (by decide) _ rfl

/-- Counterexample for C1 as stated: the successful sequence
`create_bond(7, 5, 10)` then `slash_bond(admin, 5)` leaves the stored bond
with `slashed_amount = bonded_amount = 5` while `active` is still `true`,
violating the clause that `active` is false whenever
`slashed_amount = bonded_amount`. -/
theorem c1_counterexample :
    runOps [Op.createBond 0 7 5 10, Op.slashBond 0 5]
      { admin := some 0, bond := none, config := none, gov_members := [],
        slash_req := none, fees := 0, locked := false, callback := none,
        penalty_bps := 0 } =
      .ok ({ admin := some 0, bond := some ⟨7, 5, 0, 10, 5, true, false, 0, 0⟩,
             config := none, gov_members := [], slash_req := none, fees := 0,
             locked := false, callback := none, penalty_bps := 0 }) ∧
    (⟨7, 5, 0, 10, 5, true, false, 0, 0⟩ : IdentityBond).slashed_amount =
      (⟨7, 5, 0, 10, 5, true, false, 0, 0⟩ : IdentityBond).bonded_amount ∧
    (⟨7, 5, 0, 10, 5, true, false, 0, 0⟩ : IdentityBond).active = true := by
  refine ⟨by decide, by decide, by decide⟩

/-- C1 (amended): for every sequence of successful operations among
`create_bond`, `create_bond_with_rolling`, `top_up`, `extend_duration`,
`withdraw`, `withdraw_early`, `slash`, `execute_slash` and `slash_bond` in
which every amount argument — including the amount of the live slash
request, which `execute_slash` consumes — is nonnegative and the full
self-withdrawal `withdraw_bond` does not occur, the stored bond satisfies
`0 ≤ slashed_amount ≤ bonded_amount` after every mutation.  The clause of
the original claim that `active` is false whenever
`slashed_amount = bonded_amount` does not hold (`slash`, `slash_bond`,
`withdraw` and `create_bond` can all leave an active bond with
`slashed_amount = bonded_amount`; only `execute_slash` and `withdraw_bond`
clear `active`), and `withdraw_bond` itself breaks
`slashed_amount ≤ bonded_amount` on a partially slashed bond by zeroing
`bonded_amount` while preserving `slashed_amount`. -/
theorem c1_bond_invariant (ops : List Op) : ∀ (s s2 : ContractState),
    stateBondOk s = true → reqAmountOk s = true →
    (∀ op ∈ ops, opAllowed op = true) →
    runOps ops s = .ok s2 →
    stateBondOk s2 = true ∧ reqAmountOk s2 = true := by
  induction ops with
  | nil =>
    intro s s2 hB hR _ h
    simp only [runOps, Res.ok.injEq] at h
    subst h
    exact ⟨hB, hR⟩
  | cons op rest ih =>
    intro s s2 hB hR hops h
    simp only [runOps] at h
    cases hst : runOp op s with
    | err e => simp only [hst] at h; exact absurd h (by simp)
    | ok s1 =>
      simp only [hst] at h
      have hstep := runOp_preserves_inv op s s1 hB hR (hops op (by simp)) hst
      exact ih s1 s2 hstep.1 hstep.2 (fun o ho => hops o (by simp [ho])) h

/-- Witness for C1 (amended): the spec's round-trip trace
`create(1000, 86400)`, `top_up(500)`, `withdraw(300)` extended with
`slash(200)` and `slash_bond(100)` ends with `bonded = 1200`,
`slashed = 300`, satisfying the invariant. -/
theorem c1_bond_invariant_witness :
    stateBondOk
      { admin := some 0, bond := some ⟨7, 1200, 0, 86400, 300, true, false, 0, 0⟩,
        config := none, gov_members := [], slash_req := none, fees := 0,
        locked := false, callback := none, penalty_bps := 0 } = true ∧
    reqAmountOk
      { admin := some 0, bond := some ⟨7, 1200, 0, 86400, 300, true, false, 0, 0⟩,
        config := none, gov_members := [], slash_req := none, fees := 0,
        locked := false, callback := none, penalty_bps := 0 } = true :=
  c1_bond_invariant
    [Op.createBond 0 7 1000 86400, Op.topUp 500, Op.withdrawOp 300,
      Op.slashOp 200, Op.slashBond 0 100]
    { admin := some 0, bond := none, config := none, gov_members := [],
      slash_req := none, fees := 0, locked := false, callback := none,
      penalty_bps := 0 }
    { admin := some 0, bond := some ⟨7, 1200, 0, 86400, 300, true, false, 0, 0⟩,
      config := none, gov_members := [], slash_req := none, fees := 0,
      locked := false, callback := none, penalty_bps := 0 }
    (by decide) (by decide) (by decide) (by decide)

/-- C3: for every ledger state in which the reentrancy lock is held — as it
is during another guarded operation's callback window, whose effects are
already committed — each guarded operation (`withdraw_bond`, `slash_bond`,
`collect_fees`) fails with `ReentrancyDetected`, and the ledger state after
the failed inner call is exactly the state it was invoked in. -/
theorem c3_reentrancy_rejection (s : ContractState) (ident adminA adminC : Nat)
    (amount : Int) (h : s.locked = true) :
    withdraw_bond s ident = .err .ReentrancyDetected ∧
    slash_bond s adminA amount = .err .ReentrancyDetected ∧
    collect_fees s adminC = .err .ReentrancyDetected ∧
    stateAfter (withdraw_bond s ident) s = s ∧
    stateAfter (slash_bond s adminA amount) s = s ∧
    stateAfter (collect_fees s adminC) s = s := by
  simp [withdraw_bond, slash_bond, collect_fees, stateAfter, h]

/-- Witness for C3: a concrete locked state mid-callback. -/
theorem c3_reentrancy_rejection_witness :
    withdraw_bond
      { admin := some 0, bond := some ⟨7, 1000, 0, 86400, 300, true, false, 0, 0⟩,
        config := none, gov_members := [], slash_req := none, fees := 5,
        locked := true, callback := some 9, penalty_bps := 500 } 7 =
      .err .ReentrancyDetected :=
  (c3_reentrancy_rejection _ 7 0 0 50 rfl).1

/-- C10: `create_bond` / `create_bond_with_rolling` check only that
`now + duration` fits in `u64`, never the amount: every i128 amount (zero
and negative included) is stored as `bonded_amount` of a fresh active
unslashed bond with `withdrawal_requested_at = 0`, overwriting any existing
bond. -/
theorem c10_create_bond_unvalidated (s : ContractState) (now ident : Nat)
    (amount : Int) (duration : Nat) (is_rolling : Bool) (notice : Nat)
    (_hAmt : inI128 amount) (hDur : now + duration ≤ u64Max) :
    create_bond_with_rolling s now ident amount duration is_rolling notice =
      .ok (⟨ident, amount, now, duration, 0, true, is_rolling, 0, notice⟩,
        { s with bond := some ⟨ident, amount, now, duration, 0, true, is_rolling, 0, notice⟩ }) ∧
    create_bond s now ident amount duration =
      .ok (⟨ident, amount, now, duration, 0, true, false, 0, 0⟩,
        { s with bond := some ⟨ident, amount, now, duration, 0, true, false, 0, 0⟩ }) := by
  constructor <;> simp [create_bond, create_bond_with_rolling, checkedAddU64, hDur]

/-- Witness for C10: a negative amount is accepted and the previous bond is
overwritten. -/
theorem c10_create_bond_unvalidated_witness :
    create_bond
      { admin := some 0, bond := some ⟨7, 1000, 0, 5, 0, true, false, 0, 0⟩,
        config := none, gov_members := [], slash_req := none, fees := 0,
        locked := false, callback := none, penalty_bps := 0 } 2 8 (-3) 10 =
      .ok (⟨8, -3, 2, 10, 0, true, false, 0, 0⟩,
        { admin := some 0, bond := some ⟨8, -3, 2, 10, 0, true, false, 0, 0⟩,
          config := none, gov_members := [], slash_req := none, fees := 0,
          locked := false, callback := none, penalty_bps := 0 }) :=
  (c10_create_bond_unvalidated _ 2 8 (-3) 10 false 0 (by decide) (by decide)).2

/-- Counterexample for C2 as stated: with `bonded_amount = 2`,
`slashed_amount = 1` and an `Approved` request for `i128Max` — which exceeds
`bonded_amount - slashed_amount = 1` — `execute_slash` does not succeed: the
unchecked i128 addition overflows and the call aborts. -/
theorem c2_counterexample :
    ((2 : Int) - 1 < i128Max) ∧
    execute_slash
      { admin := some 0, bond := some ⟨7, 2, 0, 10, 1, true, false, 0, 0⟩,
        config := none, gov_members := [],
        slash_req := some ⟨1, 1, 7, i128Max, 0, .Approved, [1], 0, false, 0⟩,
        fees := 0, locked := false, callback := none, penalty_bps := 0 } =
      .err .Overflow := by
  constructor
  · decide
  · decide

/-- C2 (amended): on the governed path, when the live slash request is
`Approved`, its amount exceeds `bonded_amount - slashed_amount`, and
`slashed_amount + amount` does not overflow i128, `execute_slash` succeeds
and leaves the bond with `slashed_amount = bonded_amount` and
`active = false`, and the request `Executed`. -/
theorem c2_execute_slash_cap (s : ContractState) (req : SlashRequest)
    (bond : IdentityBond) (hreq : s.slash_req = some req)
    (hst : req.status = .Approved) (hbond : s.bond = some bond)
    (hexc : bond.bonded_amount - bond.slashed_amount < req.amount)
    (hrange : inI128 (bond.slashed_amount + req.amount)) :
    execute_slash s =
      .ok ({ bond with slashed_amount := bond.bonded_amount, active := false },
        { s with
          bond := some { bond with slashed_amount := bond.bonded_amount, active := false },
          slash_req := some { req with status := .Executed } }) := by
  have hsum : uncheckedAddI128 bond.slashed_amount req.amount =
      some (bond.slashed_amount + req.amount) := by
    simp [uncheckedAddI128, checkedAddI128, hrange]
  have hle : bond.bonded_amount ≤ bond.slashed_amount + req.amount := by omega
  simp [execute_slash, hreq, hst, hbond, hsum, hle]

/-- Witness for C2 (amended): a full slash of a bond with `bonded = 1000`,
`slashed = 300` by an approved request for `800 > 700`. -/
theorem c2_execute_slash_cap_witness :
    execute_slash
      { admin := some 0, bond := some ⟨7, 1000, 0, 86400, 300, true, false, 0, 0⟩,
        config := none, gov_members := [],
        slash_req := some ⟨1, 1, 7, 800, 0, .Approved, [1, 2], 0, false, 0⟩,
        fees := 0, locked := false, callback := none, penalty_bps := 0 } =
      .ok (⟨7, 1000, 0, 86400, 1000, false, false, 0, 0⟩,
        { admin := some 0, bond := some ⟨7, 1000, 0, 86400, 1000, false, false, 0, 0⟩,
          config := none, gov_members := [],
          slash_req := some ⟨1, 1, 7, 800, 0, .Executed, [1, 2], 0, false, 0⟩,
          fees := 0, locked := false, callback := none, penalty_bps := 0 }) :=
  c2_execute_slash_cap _ _ _ rfl rfl rfl (by decide) (by decide)

/-- C7: in `execute_slash` the new slashed total is
`slashed_amount + request.amount`; whenever that i128 addition would wrap
the call fails with `Overflow` leaving both the bond and the slash request
(the whole ledger state) unchanged, and otherwise the sum, capped at
`bonded_amount`, is committed. -/
theorem c7_execute_slash_overflow (s : ContractState) (req : SlashRequest)
    (bond : IdentityBond) (hreq : s.slash_req = some req)
    (hst : req.status = .Approved) (hbond : s.bond = some bond) :
    (¬ inI128 (bond.slashed_amount + req.amount) →
      execute_slash s = .err .Overflow ∧ stateAfter (execute_slash s) s = s) ∧
    (inI128 (bond.slashed_amount + req.amount) →
      execute_slash s =
        .ok
          ((if bond.bonded_amount ≤ bond.slashed_amount + req.amount then
              { bond with slashed_amount := bond.bonded_amount, active := false }
            else { bond with slashed_amount := bond.slashed_amount + req.amount }),
          { s with
            bond := some (if bond.bonded_amount ≤ bond.slashed_amount + req.amount then
                { bond with slashed_amount := bond.bonded_amount, active := false }
              else { bond with slashed_amount := bond.slashed_amount + req.amount }),
            slash_req := some { req with status := .Executed } })) := by
  constructor
  · intro hn
    have hsum : uncheckedAddI128 bond.slashed_amount req.amount = none := by
      simp [uncheckedAddI128, checkedAddI128, hn]
    constructor <;> simp [execute_slash, hreq, hst, hbond, hsum, stateAfter]
  · intro hy
    have hsum : uncheckedAddI128 bond.slashed_amount req.amount =
        some (bond.slashed_amount + req.amount) := by
      simp [uncheckedAddI128, checkedAddI128, hy]
    by_cases hcap : bond.bonded_amount ≤ bond.slashed_amount + req.amount <;>
      simp [execute_slash, hreq, hst, hbond, hsum, hcap]

/-- Witness for C7: the overflow branch at `slashed = 1`, `amount = i128Max`
(reachable by `create_bond(i128Max)`, `slash(1)`, then a governed request for
`i128Max`). -/
theorem c7_execute_slash_overflow_witness :
    execute_slash
      { admin := some 0, bond := some ⟨7, i128Max, 0, 10, 1, true, false, 0, 0⟩,
        config := none, gov_members := [],
        slash_req := some ⟨1, 1, 7, i128Max, 0, .Approved, [1], 0, false, 0⟩,
        fees := 0, locked := false, callback := none, penalty_bps := 0 } =
      .err .Overflow :=
  ((c7_execute_slash_overflow _ _ _ rfl rfl rfl).1 (by decide)).1

/-- Counterexample for C4 as stated: a call by the configured admin on an
active bond with `slashed_amount + amount > bonded_amount` that does not
fail with `SlashExceedsBond`: while the reentrancy lock is held (e.g. inside
another guarded operation's callback) it fails with `ReentrancyDetected`
instead. -/
theorem c4_counterexample :
    ((300 : Int) + 800 > 1000) ∧
    slash_bond
      { admin := some 0, bond := some ⟨7, 1000, 0, 86400, 300, true, false, 0, 0⟩,
        config := none, gov_members := [], slash_req := none, fees := 0,
        locked := true, callback := some 9, penalty_bps := 0 } 0 800 =
      .err .ReentrancyDetected := by
  constructor
  · decide
  · decide

/-- C4 (amended): `slash_bond(admin, amount)`, called by the configured
admin on an active bond while the reentrancy lock is not held and with
`slashed_amount + amount` within i128 range, fails with `SlashExceedsBond`
whenever `slashed_amount + amount > bonded_amount` (it never caps), and
otherwise succeeds returning `slashed_amount + amount`, storing that total
with `bonded_amount` and every other bond field unchanged. -/
theorem c4_slash_bond_rejects (s : ContractState) (bond : IdentityBond)
    (a : Nat) (amount : Int) (hl : s.locked = false) (ha : s.admin = some a)
    (hb : s.bond = some bond) (hact : bond.active = true)
    (hrange : inI128 (bond.slashed_amount + amount)) :
    (bond.bonded_amount < bond.slashed_amount + amount →
      slash_bond s a amount = .err .SlashExceedsBond) ∧
    (bond.slashed_amount + amount ≤ bond.bonded_amount →
      slash_bond s a amount =
        .ok (bond.slashed_amount + amount,
          { s with
            bond := some { bond with slashed_amount := bond.slashed_amount + amount },
            locked := false })) := by
  have hsum : uncheckedAddI128 bond.slashed_amount amount =
      some (bond.slashed_amount + amount) := by
    simp [uncheckedAddI128, checkedAddI128, hrange]
  constructor
  · intro hgt
    simp [slash_bond, hl, ha, hb, hact, hsum, hgt]
  · intro hle
    simp [slash_bond, hl, ha, hb, hact, hsum, not_lt.mpr hle]

/-- Witness for C4 (amended), rejection branch: slashing `800` on a bond
with `bonded = 1000`, `slashed = 300` is rejected outright. -/
theorem c4_slash_bond_rejects_witness :
    slash_bond
      { admin := some 0, bond := some ⟨7, 1000, 0, 86400, 300, true, false, 0, 0⟩,
        config := none, gov_members := [], slash_req := none, fees := 0,
        locked := false, callback := none, penalty_bps := 0 } 0 800 =
      .err .SlashExceedsBond :=
  (c4_slash_bond_rejects _ _ 0 800 rfl rfl rfl rfl (by decide)).1 (by decide)

/-- Counterexample for C5 as stated: the bond's owner calls `withdraw_bond`
on an active bond, but the reentrancy lock is held (e.g. the call is made
from inside another guarded operation's callback), so the call fails with
`ReentrancyDetected` instead of returning `bonded_amount - slashed_amount`
and zeroing the bond. -/
theorem c5_counterexample :
    withdraw_bond
      { admin := some 0, bond := some ⟨7, 1000, 0, 86400, 300, true, false, 0, 0⟩,
        config := none, gov_members := [], slash_req := none, fees := 0,
        locked := true, callback := some 9, penalty_bps := 0 } 7 =
      .err .ReentrancyDetected := by
  decide

/-- C5 (amended): `withdraw_bond(identity)`, when the caller is the bond's
owner, the bond is active, the reentrancy lock is not held and
`bonded_amount - slashed_amount` is within i128 range (always true under the
bond invariant `0 ≤ slashed_amount ≤ bonded_amount`), returns
`bonded_amount - slashed_amount` and stores the bond with
`bonded_amount = 0`, `active = false` and every other field — `identity`,
`bond_start`, `bond_duration`, `slashed_amount`, `is_rolling`,
`withdrawal_requested_at`, `notice_period` — unchanged. -/
theorem c5_withdraw_bond_frame (s : ContractState) (bond : IdentityBond)
    (ident : Nat) (hl : s.locked = false) (hb : s.bond = some bond)
    (hid : bond.identity = ident) (hact : bond.active = true)
    (hrange : inI128 (bond.bonded_amount - bond.slashed_amount)) :
    withdraw_bond s ident =
      .ok (bond.bonded_amount - bond.slashed_amount,
        { s with
          bond := some { bond with bonded_amount := 0, active := false },
          locked := false }) := by
  have hsub : uncheckedSubI128 bond.bonded_amount bond.slashed_amount =
      some (bond.bonded_amount - bond.slashed_amount) := by
    simp [uncheckedSubI128, checkedSubI128, hrange]
  simp [withdraw_bond, hl, hb, hid, hact, hsub]

/-- Witness for C5 (amended): owner withdrawal of a partially slashed bond
returns `700` and preserves `slashed_amount = 300` and all timing fields. -/
theorem c5_withdraw_bond_frame_witness :
    withdraw_bond
      { admin := some 0, bond := some ⟨7, 1000, 50, 86400, 300, true, true, 5, 60⟩,
        config := none, gov_members := [], slash_req := none, fees := 0,
        locked := false, callback := none, penalty_bps := 0 } 7 =
      .ok (700,
        { admin := some 0, bond := some ⟨7, 0, 50, 86400, 300, false, true, 5, 60⟩,
          config := none, gov_members := [], slash_req := none, fees := 0,
          locked := false, callback := none, penalty_bps := 0 }) := by
  simpa using c5_withdraw_bond_frame
    { admin := some 0, bond := some ⟨7, 1000, 50, 86400, 300, true, true, 5, 60⟩,
      config := none, gov_members := [], slash_req := none, fees := 0,
      locked := false, callback := none, penalty_bps := 0 }
    ⟨7, 1000, 50, 86400, 300, true, true, 5, 60⟩ 7 rfl rfl rfl rfl (by decide)

/-- C8: `resolve_dispute` fails with `NotDisputed` unless the live request
is `Disputed`; resolving with `true` re-evaluates the quorum (`Approved`
when `approvals.len() ≥ required_approvals`, else `Pending`); resolving with
`false` yields `Rejected`; in every resolution the `disputed` flag is
cleared. -/
theorem c8_resolve_dispute_cases (s : ContractState) (req : SlashRequest)
    (cfg : GovernanceConfig) (hreq : s.slash_req = some req)
    (hcfg : s.config = some cfg) :
    (req.status ≠ .Disputed → ∀ b : Bool, resolve_dispute s b = .err .NotDisputed) ∧
    (req.status = .Disputed → cfg.required_approvals ≤ req.approvals.length →
      resolve_dispute s true =
        .ok (.Approved,
          { s with slash_req := some { req with status := .Approved, disputed := false } })) ∧
    (req.status = .Disputed → req.approvals.length < cfg.required_approvals →
      resolve_dispute s true =
        .ok (.Pending,
          { s with slash_req := some { req with status := .Pending, disputed := false } })) ∧
    (req.status = .Disputed →
      resolve_dispute s false =
        .ok (.Rejected,
          { s with slash_req := some { req with status := .Rejected, disputed := false } })) := by
  refine ⟨?_, ?_, ?_, ?_⟩
  · intro hne b
    simp [resolve_dispute, hreq, hne]
  · intro hd hq
    simp [resolve_dispute, hreq, hd, hcfg, hq]
  · intro hd hq
    simp [resolve_dispute, hreq, hd, hcfg, Nat.not_le.mpr hq]
  · intro hd
    simp [resolve_dispute, hreq, hd]

/-- Witness for C8: quorum 2, two approvals, disputed request resolved with
`true` goes back to `Approved` with `disputed` cleared. -/
theorem c8_resolve_dispute_cases_witness :
    resolve_dispute
      { admin := some 0, bond := none, config := some ⟨0, 2, [1, 2, 3], 1⟩,
        gov_members := [1, 2, 3],
        slash_req := some ⟨1, 1, 7, 300, 4, .Disputed, [1, 2], 0, true, 9⟩,
        fees := 0, locked := false, callback := none, penalty_bps := 0 } true =
      .ok (.Approved,
        { admin := some 0, bond := none, config := some ⟨0, 2, [1, 2, 3], 1⟩,
          gov_members := [1, 2, 3],
          slash_req := some ⟨1, 1, 7, 300, 4, .Approved, [1, 2], 0, false, 9⟩,
          fees := 0, locked := false, callback := none, penalty_bps := 0 }) :=
  (c8_resolve_dispute_cases _ _ _ rfl rfl).2.1 rfl (by decide)

/-- Counterexample for C9 as stated: `amount = -1` does not exceed
`bonded_amount - slashed_amount`, and the current time `0` is strictly
before `bond_start + bond_duration = 10`, yet `withdraw_early` fails (the
checked subtraction `i128Max - (-1)` overflows) instead of succeeding. -/
theorem c9_counterexample :
    ((-1 : Int) ≤ i128Max - 0) ∧ ((0 : Nat) < 0 + 10) ∧
    withdraw_early
      { admin := some 0, bond := some ⟨7, i128Max, 0, 10, 0, true, false, 0, 0⟩,
        config := none, gov_members := [], slash_req := none, fees := 0,
        locked := false, callback := none, penalty_bps := 500 } 0 (-1) =
      .err .Overflow := by
  refine ⟨by decide, by decide, by decide⟩

/-- C9 (amended): for every nonnegative `amount` not exceeding
`bonded_amount - slashed_amount`, on a bond satisfying the data-model
invariants (`0 ≤ slashed_amount ≤ bonded_amount ≤ i128Max` and
`bond_start + bond_duration` within `u64`), `withdraw_early` succeeds and
reduces `bonded_amount` by the full `amount` when `now` is strictly before
`bond_start + bond_duration`, and fails with `UseRegularWithdraw` when `now`
is at or after that instant. -/
theorem c9_withdraw_early_timing (s : ContractState) (bond : IdentityBond)
    (now : Nat) (amount : Int) (hb : s.bond = some bond)
    (hs0 : 0 ≤ bond.slashed_amount)
    (hsb : bond.slashed_amount ≤ bond.bonded_amount)
    (hbm : bond.bonded_amount ≤ i128Max)
    (ha0 : 0 ≤ amount)
    (ham : amount ≤ bond.bonded_amount - bond.slashed_amount)
    (hts : bond.bond_start + bond.bond_duration ≤ u64Max) :
    (now < bond.bond_start + bond.bond_duration →
      withdraw_early s now amount =
        .ok ({ bond with bonded_amount := bond.bonded_amount - amount },
          { s with bond := some { bond with bonded_amount := bond.bonded_amount - amount } })) ∧
    (bond.bond_start + bond.bond_duration ≤ now →
      withdraw_early s now amount = .err .UseRegularWithdraw) := by
  have havail : checkedSubI128 bond.bonded_amount bond.slashed_amount =
      some (bond.bonded_amount - bond.slashed_amount) := by
    simp only [checkedSubI128, inI128, i128Min, i128Max] at *
    rw [if_pos (by omega)]
  have hend : saturatingAddU64 bond.bond_start bond.bond_duration =
      bond.bond_start + bond.bond_duration := by
    simp only [saturatingAddU64]
    omega
  constructor
  · intro hlt
    have hsub : checkedSubI128 bond.bonded_amount amount =
        some (bond.bonded_amount - amount) := by
      simp only [checkedSubI128, inI128, i128Min, i128Max] at *
      rw [if_pos (by omega)]
    simp [withdraw_early, hb, havail, hend, hsub, not_lt.mpr ham,
      Nat.not_le.mpr hlt, not_lt.mpr (by omega : bond.slashed_amount ≤ bond.bonded_amount - amount)]
  · intro hge
    simp [withdraw_early, hb, havail, hend, hge, not_lt.mpr ham]

/-- Witness for C9 (amended): both branches at a concrete bond
(`bonded = 1000`, `slashed = 300`, lock-up `[0, 86400)`). -/
theorem c9_withdraw_early_timing_witness :
    (withdraw_early
      { admin := some 0, bond := some ⟨7, 1000, 0, 86400, 300, true, false, 0, 0⟩,
        config := none, gov_members := [], slash_req := none, fees := 0,
        locked := false, callback := none, penalty_bps := 500 } 100 500 =
      .ok (⟨7, 500, 0, 86400, 300, true, false, 0, 0⟩,
        { admin := some 0, bond := some ⟨7, 500, 0, 86400, 300, true, false, 0, 0⟩,
          config := none, gov_members := [], slash_req := none, fees := 0,
          locked := false, callback := none, penalty_bps := 500 })) ∧
    (withdraw_early
      { admin := some 0, bond := some ⟨7, 1000, 0, 86400, 300, true, false, 0, 0⟩,
        config := none, gov_members := [], slash_req := none, fees := 0,
        locked := false, callback := none, penalty_bps := 500 } 86400 500 =
      .err .UseRegularWithdraw) :=
  ⟨(c9_withdraw_early_timing _ _ 100 500 rfl (by decide) (by decide) (by decide)
      (by decide) (by decide) (by decide)).1 (by decide),
   (c9_withdraw_early_timing _ _ 86400 500 rfl (by decide) (by decide) (by decide)
      (by decide) (by decide) (by decide)).2 (by decide)⟩

end Credence
